import Mathlib

/-!
# FastDomainCheck: TLD resolution, domain status evaluation, batch handler

A shallow embedding of `config/config.go`, `checker/checker.go` and the
`check_domains` handler of `main.go`.

Modelling conventions.

* A Go `string` is a Lean `String`, a sequence of Unicode code points (valid
  UTF-8 text). Go's `len(s)` counts bytes, so it is `goLen`, the UTF-8
  byte length. `strings.Contains` compares bytes; on valid UTF-8 text this is
  the same as searching the code-point sequence.
* Go's `unicode` tables (`unicode.ToLower`, `unicode.Han`) are a parameter
  `Unicode`; the theorems hold for every choice of tables. `goUnicode` is the
  fragment used to evaluate concrete inputs.
* A Go `map[string]T` is an association list read with `mapGet`.
* The network and the clock are a parameter `Net` over a world state that is
  passed explicitly; every WHOIS exchange and DNS lookup is appended to a log.
-/

namespace FastDomainCheck

/-! ## Strings -/

/-- Go's `len(s)` on a string: the number of bytes of its UTF-8 encoding. -/
def goLen (s : String) : Nat :=
  (s.data.map Char.utf8Size).sum

/-- Splitting a code-point sequence at every `'.'`. -/
def splitDotChars : List Char → List (List Char)
  | [] => [[]]
  | c :: cs =>
    if c = '.' then [] :: splitDotChars cs
    else
      match splitDotChars cs with
      | [] => [[c]]
      | p :: ps => (c :: p) :: ps

/-- Go's `strings.Split(s, ".")`. -/
def splitDot (s : String) : List String :=
  (splitDotChars s.data).map String.mk

/-- Go's `strings.HasPrefix` on code-point sequences. -/
def startsWith : List Char → List Char → Bool
  | _, [] => true
  | [], _ :: _ => false
  | c :: cs, p :: ps => c == p && startsWith cs ps

/-- Search of `sub` in `s` from left to right, as `strings.Index(s, sub) >= 0`. -/
def containsChars : List Char → List Char → Bool
  | [], sub => startsWith [] sub
  | c :: cs, sub => startsWith (c :: cs) sub || containsChars cs sub

/-- Go's `strings.Contains(s, substr)`. -/
def strContains (s substr : String) : Bool :=
  containsChars s.data substr.data

/-! ## Unicode tables -/

/-- The two tables of Go's `unicode` package that the checker consults. -/
structure Unicode where
  /-- The function `unicode.ToLower`. -/
  toLower : Char → Char
  /-- The predicate `unicode.Is(unicode.Han, r)`. -/
  isHan : Char → Bool

/-- Go's `strings.ToLower`: `unicode.ToLower` applied to every code point. -/
def strToLower (U : Unicode) (s : String) : String :=
  String.mk (s.data.map U.toLower)

/-- Inclusive code-point ranges of the Han script, after the table
`unicode.Han` (Unicode 15.0). -/
def hanRanges : List (Nat × Nat) :=
  [(0x2e80, 0x2e99), (0x2e9b, 0x2ef3), (0x2f00, 0x2fd5), (0x3005, 0x3005),
   (0x3007, 0x3007), (0x3021, 0x3029), (0x3038, 0x303b), (0x3400, 0x4dbf),
   (0x4e00, 0x9fff), (0xf900, 0xfa6d), (0xfa70, 0xfad9), (0x16fe2, 0x16fe3),
   (0x16ff0, 0x16ff1), (0x20000, 0x2a6df), (0x2a700, 0x2b739),
   (0x2b740, 0x2b81d), (0x2b820, 0x2cea1), (0x2ceb0, 0x2ebe0),
   (0x2f800, 0x2fa1d), (0x30000, 0x3134a), (0x31350, 0x323af)]

/-- The tables used to evaluate concrete inputs: ASCII case folding (the
ASCII fragment of `unicode.ToLower`) and the Han ranges. -/
def goUnicode : Unicode where
  toLower := fun c =>
    if 65 ≤ c.toNat ∧ c.toNat ≤ 90 then Char.ofNat (c.toNat + 32) else c
  isHan := fun c => hanRanges.any (fun r => r.1 ≤ c.toNat && c.toNat ≤ r.2)

/-! ## config/config.go -/

/-- Go's `v, ok := m[k]`: `some v` when the key is present. -/
def mapGet {β : Type} (m : List (String × β)) (k : String) : Option β :=
  match m with
  | [] => none
  | (k', v) :: rest => if k' = k then some v else mapGet rest k

/-- Go's `_, ok := m[k]`. -/
def mapHas {β : Type} (m : List (String × β)) (k : String) : Bool :=
  (mapGet m k).isSome

/-- Go's `m[k] = v`. -/
def mapSet {β : Type} (m : List (String × β)) (k : String) (v : β) :
    List (String × β) :=
  match m with
  | [] => [(k, v)]
  | (k', v') :: rest =>
    if k' = k then (k, v) :: rest else (k', v') :: mapSet rest k v

/-- The type `Config`. -/
structure Config where
  /-- WHOIS server mappings for different TLDs. -/
  WhoisServers : List (String × String)
  /-- Patterns indicating domain availability. -/
  NotFoundPattern : List (String × List String)

/-- The function `NewConfig`. -/
def NewConfig : Config where
  WhoisServers := [
    ("com", "whois.verisign-grs.com"),
    ("net", "whois.verisign-grs.com"),
    ("org", "whois.pir.org"),
    ("info", "whois.nic.info"),
    ("biz", "whois.nic.biz"),
    ("mobi", "whois.nic.mobi"),
    ("edu", "whois.educause.edu"),
    ("gov", "whois.dotgov.gov"),
    ("mil", "whois.nic.mil"),
    ("int", "whois.iana.org"),
    ("cn", "whois.cnnic.cn"),
    ("hk", "whois.hkirc.hk"),
    ("tw", "whois.twnic.net.tw"),
    ("io", "whois.nic.io"),
    ("ai", "whois.nic.ai"),
    ("me", "whois.nic.me"),
    ("cc", "whois.nic.cc"),
    ("tv", "whois.nic.tv"),
    ("co", "whois.nic.co"),
    ("xyz", "whois.nic.xyz"),
    ("top", "whois.nic.top"),
    ("vip", "whois.nic.vip"),
    ("club", "whois.nic.club"),
    ("shop", "whois.nic.shop"),
    ("site", "whois.nic.site"),
    ("wang", "whois.nic.wang"),
    ("xin", "whois.nic.xin"),
    ("app", "whois.nic.google"),
    ("dev", "whois.nic.google"),
    ("cloud", "whois.nic.cloud"),
    ("online", "whois.nic.online"),
    ("store", "whois.nic.store"),
    ("com.cn", "whois.cnnic.cn"),
    ("net.cn", "whois.cnnic.cn"),
    ("org.cn", "whois.cnnic.cn"),
    ("gov.cn", "whois.cnnic.cn"),
    ("中国", "whois.cnnic.cn"),
    ("公司", "whois.cnnic.cn"),
    ("网络", "whois.cnnic.cn"),
    ("商城", "whois.cnnic.cn"),
    ("网店", "whois.cnnic.cn"),
    ("中文网", "whois.cnnic.cn")]
  NotFoundPattern := [
    ("default", ["Domain not found", "No match for", "NOT FOUND", "No Data Found",
      "No entries found"]),
    ("cn", ["no matching record", "No matching record"]),
    ("com", ["No match for", "NOT FOUND", "No Data Found"]),
    ("net", ["No match for", "NOT FOUND", "No Data Found"])]

/-! ## checker/checker.go: TLD resolution -/

/-- The function `containsChinese`. -/
def containsChinese (U : Unicode) (s : String) : Bool :=
  s.data.any U.isHan

/-- The IDN loop of `getTLD`: `some r` when the loop returns `r` at the first
part containing a Han character, `none` when the loop runs to its end. -/
def idnLoop (U : Unicode) (cfg : Config) : List String → Option String
  | [] => none
  | part :: rest =>
    if containsChinese U part then
      if mapHas cfg.WhoisServers part then some part else some ""
    else idnLoop U cfg rest

/-- Go's `parts[i]` on a slice of strings. Every use below is in range
(`splitDot_length_pos`, and the guard `len(parts) >= 3`), so the default is
never produced. -/
def idx (parts : List String) (i : Nat) : String :=
  parts.getD i ""

/-- The function `DomainChecker.getTLD`. -/
def getTLD (U : Unicode) (cfg : Config) (domain : String) : String :=
  let parts := splitDot (strToLower U domain)
  match idnLoop U cfg parts with
  | some r => r
  | none =>
    let compoundTLD := idx parts (parts.length - 2) ++ "." ++ idx parts (parts.length - 1)
    if parts.length ≥ 3 ∧ mapHas cfg.WhoisServers compoundTLD = true then compoundTLD
    else
      let tld := idx parts (parts.length - 1)
      if mapHas cfg.WhoisServers tld then tld else ""

/-- The condition of the specification for "a TLD present in the Registry
Directory", in its words: the lower-cased last label, or the lower-cased last
two labels joined by ".", is a key of `WhoisServers`. -/
def tldPresentInDirectory (U : Unicode) (cfg : Config) (domain : String) : Bool :=
  match (splitDot (strToLower U domain)).reverse with
  | [] => false
  | [b] => mapHas cfg.WhoisServers b
  | b :: a :: _ => mapHas cfg.WhoisServers b || mapHas cfg.WhoisServers (a ++ "." ++ b)

/-! ## The network and the clock -/

/-- What `net.LookupHost` returns, as far as `checkDNSRecord` inspects it:
addresses, an error of type `*net.DNSError` with its `IsNotFound` flag, or an
error of another type. Errors are represented by their message. -/
inductive LookupHostResult where
  | addrs (as : List String)
  | dnsError (msg : String) (isNotFound : Bool)
  | otherError (msg : String)
  deriving DecidableEq

/-- A network operation performed by the checker. -/
inductive NetCall where
  /-- A TCP exchange: dial `address`, write `payload`, read until the peer
  closes or the read deadline passes. -/
  | whois (address : String) (payload : String)
  /-- A call of `net.LookupHost`. -/
  | dns (host : String)
  deriving DecidableEq

/-- The environment over a world state `σ`. -/
structure Net (σ : Type) where
  /-- Dial `address`, write `payload` and read the response: the message of the
  dial error, or the accumulated response text (write and read errors are
  not reported by the source). -/
  whoisExchange : String → String → σ → Except String String × σ
  /-- The function `net.LookupHost`. -/
  lookupHost : String → σ → LookupHostResult × σ
  /-- The text `fmt.Sprintf("%.2fs", d.Seconds())` for the time `d` that passed
  between two world states. -/
  elapsed : σ → σ → String

/-- The running system: the world and the log of network operations so far. -/
structure Sys (σ : Type) where
  world : σ
  log : List NetCall
  deriving DecidableEq

/-! ## checker/checker.go: queries and the status evaluator -/

/-- The type `DomainStatus`. -/
structure DomainStatus where
  Status : String
  Reason : String
  Details : String
  TimingInfo : List (String × String)
  deriving DecidableEq

/-- The local `whoisServer` of `queryWhois`: the configured server of the TLD,
and `"whois.iana.org"` when the map yields the empty string. -/
def whoisServer (U : Unicode) (cfg : Config) (domain : String) : String :=
  let tld := getTLD U cfg domain
  let server := (mapGet cfg.WhoisServers tld).getD ""
  if server = "" then "whois.iana.org" else server

/-- The function `DomainChecker.queryWhois`: the response text, or the error. -/
def queryWhois {σ : Type} (U : Unicode) (cfg : Config) (net : Net σ)
    (domain : String) (s : Sys σ) : Except String String × Sys σ :=
  let address := whoisServer U cfg domain ++ ":43"
  let payload := domain ++ "\r\n"
  let out := net.whoisExchange address payload s.world
  let s1 : Sys σ := { world := out.2, log := s.log ++ [NetCall.whois address payload] }
  match out.1 with
  | Except.error err => (Except.error ("failed to connect to WHOIS server: " ++ err), s1)
  | Except.ok response => (Except.ok response, s1)

/-- The function `DomainChecker.checkDNSRecord`: the boolean and the error
(`none` for `nil`). -/
def checkDNSRecord {σ : Type} (net : Net σ) (domain : String) (s : Sys σ) :
    (Bool × Option String) × Sys σ :=
  let out := net.lookupHost domain s.world
  let s1 : Sys σ := { world := out.2, log := s.log ++ [NetCall.dns domain] }
  match out.1 with
  | LookupHostResult.addrs _ => ((true, none), s1)
  | LookupHostResult.dnsError msg isNotFound =>
    if isNotFound then ((false, none), s1) else ((false, some msg), s1)
  | LookupHostResult.otherError msg => ((false, some msg), s1)

/-- The local `notFoundPatterns` of `CheckDomain`: the patterns of the TLD,
and the patterns of `"default"` when the TLD has none. -/
def notFoundPatterns (cfg : Config) (tld : String) : List String :=
  let patterns := (mapGet cfg.NotFoundPattern tld).getD []
  if patterns.length = 0 then (mapGet cfg.NotFoundPattern "default").getD []
  else patterns

/-- The function `DomainChecker.CheckDomain`. -/
def CheckDomain {σ : Type} (U : Unicode) (cfg : Config) (net : Net σ)
    (domain : String) (s : Sys σ) : DomainStatus × Sys σ :=
  let timingInfo : List (String × String) := []
  let tld := getTLD U cfg domain
  if tld = "" then
    ({ Status := "failed",
       Reason := "Unsupported TLD",
       Details := "Unsupported top-level domain: " ++
         idx (splitDot domain) ((splitDot domain).length - 1),
       TimingInfo := timingInfo }, s)
  else
    let w := queryWhois U cfg net domain s
    let timingInfo := mapSet timingInfo "whois_query" (net.elapsed s.world w.2.world)
    match w.1 with
    | Except.error err =>
      let d := checkDNSRecord net domain w.2
      let timingInfo := mapSet timingInfo "dns_query" (net.elapsed w.2.world d.2.world)
      match d.1.2 with
      | none =>
        if d.1.1 then
          ({ Status := "registered",
             Reason := "DNS resolution successful",
             Details := "Domain is registered (confirmed by DNS lookup)",
             TimingInfo := timingInfo }, d.2)
        else
          ({ Status := "unregistered",
             Reason := "No DNS records found",
             Details := "Domain is not registered (confirmed by DNS lookup)",
             TimingInfo := timingInfo }, d.2)
      | some dnsErr =>
        ({ Status := "failed",
           Reason := "Both WHOIS and DNS queries failed",
           Details := "WHOIS error: " ++ err ++ ", DNS error: " ++ dnsErr,
           TimingInfo := timingInfo }, d.2)
    | Except.ok whoisResponse =>
      if (notFoundPatterns cfg tld).any (fun pattern => strContains whoisResponse pattern) then
        ({ Status := "unregistered",
           Reason := "Domain available according to WHOIS",
           Details := "Domain is not registered (confirmed by WHOIS)",
           TimingInfo := timingInfo }, w.2)
      else
        ({ Status := "registered",
           Reason := "Domain registered according to WHOIS",
           Details := "Domain is registered (confirmed by WHOIS)",
           TimingInfo := timingInfo }, w.2)

/-- The function `DomainChecker.CheckDomains`: the domains are checked one
after the other, each in the world left by the one before. -/
def CheckDomains {σ : Type} (U : Unicode) (cfg : Config) (net : Net σ) :
    List String → Sys σ → List DomainStatus × Sys σ
  | [], s => ([], s)
  | domain :: rest, s =>
    let r := CheckDomain U cfg net domain s
    let rs := CheckDomains U cfg net rest r.2
    (r.1 :: rs.1, rs.2)

/-! ## main.go: the `check_domains` handler -/

/-- The type `CheckDomainsRequest`. -/
structure CheckDomainsRequest where
  Domains : List String

/-- The type `SimpleDomainStatus`. -/
structure SimpleDomainStatus where
  /-- The source comments: true: registered, false: available. -/
  Registered : Bool
  deriving DecidableEq

/-- The type `SimpleCheckDomainsResponse`. -/
structure SimpleCheckDomainsResponse where
  Results : List (String × SimpleDomainStatus)
  deriving DecidableEq

/-- The loop "Check domain format" of the handler: the error it returns, or
`none` when it runs to its end. -/
def checkFormat : List String → Option String
  | [] => none
  | domain :: rest =>
    if goLen domain = 0 then some "domain name cannot be empty"
    else if goLen domain > 255 then
      some ("domain name cannot exceed 255 characters: " ++ domain)
    else checkFormat rest

/-- Go's `results[i].Status` on the slice returned by `CheckDomains`, which
has one element per domain (`CheckDomains_length`), so the index is in range. -/
def statusAt (results : List DomainStatus) (i : Nat) : String :=
  match results.get? i with
  | some r => r.Status
  | none => ""

/-- The loop "Convert results to simplified format" of the handler, from
index `i` on. -/
def convertResults (results : List DomainStatus) :
    List String → Nat → List (String × SimpleDomainStatus) →
    List (String × SimpleDomainStatus)
  | [], _, m => m
  | domain :: rest, i, m =>
    convertResults results rest (i + 1)
      (mapSet m domain { Registered := statusAt results i == "registered" })

/-- The handler of the tool `check_domains`: the error it returns, or the
response that it serialises with `json.Marshal`. -/
def checkDomainsHandler {σ : Type} (U : Unicode) (cfg : Config) (net : Net σ)
    (arguments : CheckDomainsRequest) (s : Sys σ) :
    Except String SimpleCheckDomainsResponse × Sys σ :=
  if arguments.Domains.length = 0 then
    (Except.error "domains list cannot be empty", s)
  else if arguments.Domains.length > 50 then
    (Except.error "maximum 50 domains allowed per request", s)
  else
    match checkFormat arguments.Domains with
    | some err => (Except.error err, s)
    | none =>
      let results := CheckDomains U cfg net arguments.Domains s
      let response : SimpleCheckDomainsResponse :=
        { Results := convertResults results.1 arguments.Domains 0 [] }
      (Except.ok response, results.2)

/-! ## Environments for evaluation -/

/-- A network that answers by two fixed tables and counts its operations. -/
def tableNet (whois : String → String → Except String String)
    (dns : String → LookupHostResult) : Net Nat where
  whoisExchange := fun address payload n => (whois address payload, n + 1)
  lookupHost := fun host n => (dns host, n + 1)
  elapsed := fun _ _ => "0.00s"

/-- The initial system: world `0`, empty log. -/
def sys0 : Sys Nat :=
  { world := 0, log := [] }

/-! ## Lists of labels -/

theorem splitDotChars_ne_nil (l : List Char) : splitDotChars l ≠ [] := by
  cases l with
  | nil => simp [splitDotChars]
  | cons c cs =>
    unfold splitDotChars
    split
    · simp
    · split <;> simp

theorem splitDot_length_pos (s : String) : 0 < (splitDot s).length := by
  unfold splitDot
  rw [List.length_map]
  exact List.length_pos.mpr (splitDotChars_ne_nil _)

theorem idx_last (pre : List String) (b : String) :
    idx (pre ++ [b]) ((pre ++ [b]).length - 1) = b := by
  simp [idx, List.getD_eq_getElem?_getD]

theorem idx_second_last (pre : List String) (a b : String) :
    idx (pre ++ [a, b]) ((pre ++ [a, b]).length - 2) = a := by
  have hlen : (pre ++ [a, b]).length - 2 = pre.length := by simp
  rw [hlen]
  induction pre with
  | nil => rfl
  | cons q rest ih => simpa [idx] using ih

theorem idx_last_of_pair (pre : List String) (a b : String) :
    idx (pre ++ [a, b]) ((pre ++ [a, b]).length - 1) = b := by
  have h : pre ++ [a, b] = (pre ++ [a]) ++ [b] := by simp
  rw [h]
  exact idx_last _ _

theorem exists_last (parts : List String) (h : 0 < parts.length) :
    ∃ pre b, parts = pre ++ [b] := by
  have hne : parts ≠ [] := List.length_pos.mp h
  exact ⟨parts.dropLast, parts.getLast hne, (List.dropLast_append_getLast hne).symm⟩

theorem exists_last_two (parts : List String) (h : 2 ≤ parts.length) :
    ∃ pre a b, parts = pre ++ [a, b] ∧ pre.length + 2 = parts.length := by
  obtain ⟨q, b, hq⟩ := exists_last parts (by omega)
  have hq2 : 0 < q.length := by
    have := congrArg List.length hq
    simp at this
    omega
  obtain ⟨pre, a, hpre⟩ := exists_last q hq2
  refine ⟨pre, a, b, ?_, ?_⟩
  · rw [hq, hpre]; simp
  · rw [hq, hpre]; simp

/-! ## The IDN loop -/

theorem idnLoop_none_iff (U : Unicode) (cfg : Config) (parts : List String) :
    idnLoop U cfg parts = none ↔ ∀ l ∈ parts, containsChinese U l = false := by
  induction parts with
  | nil => simp [idnLoop]
  | cons p rest ih =>
    unfold idnLoop
    by_cases hp : containsChinese U p = true
    · simp [hp]
      split <;> simp
    · simp [hp, ih]

theorem idnLoop_first (U : Unicode) (cfg : Config) (pre post : List String) (p : String)
    (hpre : ∀ l ∈ pre, containsChinese U l = false) (hp : containsChinese U p = true) :
    idnLoop U cfg (pre ++ p :: post) =
      some (if mapHas cfg.WhoisServers p = true then p else "") := by
  induction pre with
  | nil =>
    simp only [List.nil_append, idnLoop, hp, if_true]
    split <;> rfl
  | cons q rest ih =>
    have hq : containsChinese U q = false := hpre q (by simp)
    simp only [List.cons_append, idnLoop, hq]
    exact ih (fun l hl => hpre l (by simp [hl]))

theorem exists_first_han (U : Unicode) (parts : List String)
    (h : ∃ l ∈ parts, containsChinese U l = true) :
    ∃ pre p post, parts = pre ++ p :: post ∧
      (∀ l ∈ pre, containsChinese U l = false) ∧ containsChinese U p = true := by
  induction parts with
  | nil => simp at h
  | cons q rest ih =>
    by_cases hq : containsChinese U q = true
    · exact ⟨[], q, rest, by simp, by simp, hq⟩
    · have hrest : ∃ l ∈ rest, containsChinese U l = true := by
        obtain ⟨l, hl, hl2⟩ := h
        rcases List.mem_cons.mp hl with rfl | hl
        · exact absurd hl2 hq
        · exact ⟨l, hl, hl2⟩
      obtain ⟨pre, p, post, he, hpre, hp⟩ := ih hrest
      refine ⟨q :: pre, p, post, by simp [he], ?_, hp⟩
      intro l hl
      rcases List.mem_cons.mp hl with rfl | hl
      · simpa using hq
      · exact hpre l hl

theorem getTLD_of_compound (U : Unicode) (cfg : Config) (domain : String)
    (pre : List String) (a b : String)
    (hparts : splitDot (strToLower U domain) = pre ++ [a, b])
    (hpre : pre ≠ [])
    (hhan : ∀ l ∈ splitDot (strToLower U domain), containsChinese U l = false)
    (hkey : mapHas cfg.WhoisServers (a ++ "." ++ b) = true) :
    getTLD U cfg domain = a ++ "." ++ b := by
  have hlen : (pre ++ [a, b]).length ≥ 3 := by
    have : 0 < pre.length := List.length_pos.mpr hpre
    simp
    omega
  have hloop := (idnLoop_none_iff U cfg _).mpr hhan
  unfold getTLD
  simp only [hloop]
  rw [hparts, idx_second_last, idx_last_of_pair]
  rw [if_pos ⟨hlen, hkey⟩]

/-! ## C2, C3: precedence in `getTLD` -/

/-- C2. Compound-TLD precedence: when the lower-cased domain has at least 3
labels (`pre` non-empty, then `a`, then `b`), none of them containing a Han
character, and `a.b` is a key of `WhoisServers`, `getTLD` returns `a.b`,
whether or not `b` alone is a key. -/
theorem getTLD_compound_precedence (U : Unicode) (cfg : Config) (domain : String)
    (pre : List String) (a b : String)
    (hparts : splitDot (strToLower U domain) = pre ++ [a, b])
    (hpre : pre ≠ [])
    (hhan : ∀ l ∈ splitDot (strToLower U domain), containsChinese U l = false)
    (hkey : mapHas cfg.WhoisServers (a ++ "." ++ b) = true) :
    getTLD U cfg domain = a ++ "." ++ b :=
  getTLD_of_compound U cfg domain pre a b hparts hpre hhan hkey

/-- C2, witness under the default configuration: `getTLD("a.com.cn")` is
`"com.cn"`, and it is not `"cn"`. -/
theorem getTLD_compound_precedence_witness :
    getTLD goUnicode NewConfig "a.com.cn" = "com" ++ "." ++ "cn" ∧
    getTLD goUnicode NewConfig "a.com.cn" ≠ "cn" ∧
    mapHas NewConfig.WhoisServers "cn" = true :=
  ⟨getTLD_compound_precedence goUnicode NewConfig "a.com.cn" ["a"] "com" "cn"
      (by decide) (by decide) (by decide) (by decide),
    by decide, by decide⟩

/-- C3. IDN precedence: when some label of the lower-cased domain contains a
Han character, `getTLD` is decided by the first such label `p` alone: it
returns `p` if `p` is a key of `WhoisServers` and the empty string if not,
whatever the labels before it (`pre`) and after it (`post`) are. -/
theorem getTLD_idn_precedence (U : Unicode) (cfg : Config) (domain : String)
    (h : ∃ l ∈ splitDot (strToLower U domain), containsChinese U l = true) :
    ∃ pre p post, splitDot (strToLower U domain) = pre ++ p :: post ∧
      (∀ l ∈ pre, containsChinese U l = false) ∧ containsChinese U p = true ∧
      getTLD U cfg domain = if mapHas cfg.WhoisServers p = true then p else "" := by
  obtain ⟨pre, p, post, he, hpre, hp⟩ := exists_first_han U _ h
  refine ⟨pre, p, post, he, hpre, hp, ?_⟩
  unfold getTLD
  simp only [he, idnLoop_first U cfg pre post p hpre hp]

/-- C3, witness under the default configuration: in `"中.com"` the label
`"中"` is not a key, and the result is empty although `"com"` is a key. -/
theorem getTLD_idn_precedence_witness :
    (∃ pre p post, splitDot (strToLower goUnicode "中.com") = pre ++ p :: post ∧
      (∀ l ∈ pre, containsChinese goUnicode l = false) ∧
      containsChinese goUnicode p = true ∧
      getTLD goUnicode NewConfig "中.com" =
        if mapHas NewConfig.WhoisServers p = true then p else "") ∧
    getTLD goUnicode NewConfig "中.com" = "" ∧
    mapHas NewConfig.WhoisServers "com" = true :=
  ⟨getTLD_idn_precedence goUnicode NewConfig "中.com" ⟨"中", by decide, by decide⟩,
    by decide, by decide⟩

/-! ## C1: when `getTLD` is non-empty -/

theorem compound_ne_empty (a b : String) : a ++ "." ++ b ≠ "" := by
  intro h
  have hl := congrArg String.length h
  simp [String.length_append] at hl
  exact absurd hl.1.2 (by decide)

theorem key_ne_empty (cfg : Config) (k : String)
    (hkeys : mapHas cfg.WhoisServers "" = false)
    (hk : mapHas cfg.WhoisServers k = true) : k ≠ "" := by
  intro h
  rw [h, hkeys] at hk
  exact Bool.noConfusion hk

/-- C1, counterexample. Under the default configuration `"中.com"` has the
lower-cased last label `"com"`, a key of `WhoisServers`, and `getTLD` returns
the empty string; under a directory with the single key `"com.cn"` the
two-label domain `"com.cn"` has its last two labels joined as a key, and
`getTLD` returns the empty string. In both, no key is empty. -/
theorem getTLD_nonempty_iff_present_counterexample :
    (mapHas NewConfig.WhoisServers "" = false ∧
      tldPresentInDirectory goUnicode NewConfig "中.com" = true ∧
      getTLD goUnicode NewConfig "中.com" = "") ∧
    (mapHas [("com.cn", "whois.cnnic.cn")] "" = false ∧
      tldPresentInDirectory goUnicode
        { WhoisServers := [("com.cn", "whois.cnnic.cn")], NotFoundPattern := [] }
        "com.cn" = true ∧
      getTLD goUnicode
        { WhoisServers := [("com.cn", "whois.cnnic.cn")], NotFoundPattern := [] }
        "com.cn" = "") := by
  decide

/-- C1, amended. For every domain and every directory without an empty key,
`getTLD` is non-empty exactly in these cases: some label of the lower-cased
domain contains a Han character and the first such label is a key; or no
label contains a Han character and either the domain has at least 3 labels
and the last two joined by "." are a key, or the last label is a key. In
every other case `getTLD` is the empty string. -/
theorem getTLD_nonempty_iff (U : Unicode) (cfg : Config) (domain : String)
    (hkeys : mapHas cfg.WhoisServers "" = false) :
    (getTLD U cfg domain ≠ "" ↔
      (∃ pre p post, splitDot (strToLower U domain) = pre ++ p :: post ∧
        (∀ l ∈ pre, containsChinese U l = false) ∧ containsChinese U p = true ∧
        mapHas cfg.WhoisServers p = true) ∨
      ((∀ l ∈ splitDot (strToLower U domain), containsChinese U l = false) ∧
        ((∃ pre a b, pre ≠ [] ∧ splitDot (strToLower U domain) = pre ++ [a, b] ∧
            mapHas cfg.WhoisServers (a ++ "." ++ b) = true) ∨
          (∃ pre b, splitDot (strToLower U domain) = pre ++ [b] ∧
            mapHas cfg.WhoisServers b = true)))) := by
  constructor
  · intro hne
    cases hloop : idnLoop U cfg (splitDot (strToLower U domain)) with
    | some r =>
      left
      have hex : ∃ l ∈ splitDot (strToLower U domain), containsChinese U l = true := by
        by_contra hcon
        have hall : ∀ l ∈ splitDot (strToLower U domain), containsChinese U l = false := by
          intro l hl
          cases hc : containsChinese U l with
          | false => rfl
          | true => exact absurd ⟨l, hl, hc⟩ hcon
        rw [(idnLoop_none_iff U cfg _).mpr hall] at hloop
        exact Option.noConfusion hloop
      obtain ⟨pre, p, post, he, hpre, hp⟩ := exists_first_han U _ hex
      refine ⟨pre, p, post, he, hpre, hp, ?_⟩
      have hval : getTLD U cfg domain =
          if mapHas cfg.WhoisServers p = true then p else "" := by
        unfold getTLD
        simp only [he, idnLoop_first U cfg pre post p hpre hp]
      by_contra hk
      rw [hval, if_neg hk] at hne
      exact hne rfl
    | none =>
      right
      refine ⟨(idnLoop_none_iff U cfg _).mp hloop, ?_⟩
      have hval : getTLD U cfg domain =
          if (splitDot (strToLower U domain)).length ≥ 3 ∧
              mapHas cfg.WhoisServers
                (idx (splitDot (strToLower U domain))
                    ((splitDot (strToLower U domain)).length - 2) ++ "." ++
                  idx (splitDot (strToLower U domain))
                    ((splitDot (strToLower U domain)).length - 1)) = true
          then idx (splitDot (strToLower U domain))
                ((splitDot (strToLower U domain)).length - 2) ++ "." ++
              idx (splitDot (strToLower U domain))
                ((splitDot (strToLower U domain)).length - 1)
          else if mapHas cfg.WhoisServers
              (idx (splitDot (strToLower U domain))
                ((splitDot (strToLower U domain)).length - 1)) = true
            then idx (splitDot (strToLower U domain))
              ((splitDot (strToLower U domain)).length - 1)
            else "" := by
        unfold getTLD
        simp only [hloop]
      by_cases hc : (splitDot (strToLower U domain)).length ≥ 3 ∧
              mapHas cfg.WhoisServers
                (idx (splitDot (strToLower U domain))
                    ((splitDot (strToLower U domain)).length - 2) ++ "." ++
                  idx (splitDot (strToLower U domain))
                    ((splitDot (strToLower U domain)).length - 1)) = true
      · left
        obtain ⟨pre, a, b, he, hl⟩ :=
          exists_last_two (splitDot (strToLower U domain)) (by have := hc.1; omega)
        have hk := hc.2
        rw [he, idx_second_last, idx_last_of_pair] at hk
        refine ⟨pre, a, b, ?_, he, hk⟩
        intro hnil
        rw [hnil] at hl
        have := hc.1
        simp at hl
        omega
      · right
        rw [hval, if_neg hc] at hne
        obtain ⟨pre, b, he⟩ := exists_last _ (splitDot_length_pos (strToLower U domain))
        refine ⟨pre, b, he, ?_⟩
        by_contra hk
        rw [he, idx_last] at hne
        rw [if_neg hk] at hne
        exact hne rfl
  · intro h
    rcases h with ⟨pre, p, post, he, hpre, hp, hk⟩ | ⟨hall, h2⟩
    · have hval : getTLD U cfg domain = p := by
        unfold getTLD
        simp only [he, idnLoop_first U cfg pre post p hpre hp, if_pos hk]
      rw [hval]
      exact key_ne_empty cfg p hkeys hk
    · have hloop := (idnLoop_none_iff U cfg _).mpr hall
      rcases h2 with ⟨pre, a, b, hpre, he, hk⟩ | ⟨pre, b, he, hk⟩
      · rw [getTLD_of_compound U cfg domain pre a b he hpre hall hk]
        exact compound_ne_empty a b
      · unfold getTLD
        simp only [hloop]
        split
        · exact compound_ne_empty _ _
        · rw [he, idx_last, if_pos hk]
          exact key_ne_empty cfg b hkeys hk

/-- C1 amended, witness under the default configuration, at `"a.com.cn"`. -/
theorem getTLD_nonempty_iff_witness :
    mapHas NewConfig.WhoisServers "" = false ∧
    (getTLD goUnicode NewConfig "a.com.cn" ≠ "" ↔
      (∃ pre p post, splitDot (strToLower goUnicode "a.com.cn") = pre ++ p :: post ∧
        (∀ l ∈ pre, containsChinese goUnicode l = false) ∧
        containsChinese goUnicode p = true ∧
        mapHas NewConfig.WhoisServers p = true) ∨
      ((∀ l ∈ splitDot (strToLower goUnicode "a.com.cn"),
          containsChinese goUnicode l = false) ∧
        ((∃ pre a b, pre ≠ [] ∧
            splitDot (strToLower goUnicode "a.com.cn") = pre ++ [a, b] ∧
            mapHas NewConfig.WhoisServers (a ++ "." ++ b) = true) ∨
          (∃ pre b, splitDot (strToLower goUnicode "a.com.cn") = pre ++ [b] ∧
            mapHas NewConfig.WhoisServers b = true)))) :=
  ⟨by decide, getTLD_nonempty_iff goUnicode NewConfig "a.com.cn" (by decide)⟩

/-! ## Substrings -/

theorem startsWith_iff (s p : List Char) :
    startsWith s p = true ↔ ∃ b, s = p ++ b := by
  induction p generalizing s with
  | nil => simp [startsWith]
  | cons x xs ih =>
    cases s with
    | nil => simp [startsWith]
    | cons c cs =>
      simp only [startsWith, Bool.and_eq_true, beq_iff_eq, ih, List.cons_append,
        List.cons.injEq]
      constructor
      · rintro ⟨rfl, b, rfl⟩
        exact ⟨b, rfl, rfl⟩
      · rintro ⟨b, rfl, rfl⟩
        exact ⟨rfl, b, rfl⟩

theorem containsChars_iff (s sub : List Char) :
    containsChars s sub = true ↔ ∃ a b, s = a ++ sub ++ b := by
  induction s with
  | nil =>
    simp only [containsChars, startsWith_iff]
    constructor
    · rintro ⟨b, hb⟩
      exact ⟨[], b, by simpa using hb⟩
    · rintro ⟨a, b, hab⟩
      have h1 : a ++ sub ++ b = [] := hab.symm
      simp only [List.append_eq_nil] at h1
      exact ⟨[], by simp [h1.1.2]⟩
  | cons c cs ih =>
    simp only [containsChars, Bool.or_eq_true, startsWith_iff, ih]
    constructor
    · rintro (⟨b, hb⟩ | ⟨a, b, hab⟩)
      · exact ⟨[], b, by simpa using hb⟩
      · exact ⟨c :: a, b, by simp [hab]⟩
    · rintro ⟨a, b, hab⟩
      cases a with
      | nil => exact Or.inl ⟨b, by simpa using hab⟩
      | cons x xs =>
        simp only [List.cons_append, List.cons.injEq] at hab
        exact Or.inr ⟨xs, b, by simpa using hab.2⟩

theorem strContains_iff (s sub : String) :
    strContains s sub = true ↔ ∃ a b : String, s = a ++ sub ++ b := by
  unfold strContains
  rw [containsChars_iff]
  constructor
  · rintro ⟨a, b, hab⟩
    refine ⟨String.mk a, String.mk b, ?_⟩
    apply String.ext
    simpa [String.data_append] using hab
  · rintro ⟨a, b, hab⟩
    refine ⟨a.data, b.data, ?_⟩
    rw [hab]
    simp [String.data_append]

/-! ## The last label of a domain as given -/

theorem splitDotChars_last (l : List Char) :
    ∃ pre last, splitDotChars l = pre ++ [last] ∧ (∀ c ∈ last, c ≠ '.') ∧
      ((pre = [] ∧ l = last) ∨ (pre ≠ [] ∧ ∃ front, l = front ++ '.' :: last)) := by
  induction l with
  | nil => exact ⟨[], [], rfl, by simp, Or.inl ⟨rfl, rfl⟩⟩
  | cons c cs ih =>
    obtain ⟨pre, last, he, hdot, hshape⟩ := ih
    by_cases hc : c = '.'
    · refine ⟨[] :: pre, last, ?_, hdot, Or.inr ⟨by simp, ?_⟩⟩
      · simp [splitDotChars, hc, he]
      · rcases hshape with ⟨_, h2⟩ | ⟨_, front, h2⟩
        · exact ⟨[], by simp [hc, h2]⟩
        · exact ⟨c :: front, by simp [h2]⟩
    · cases pre with
      | nil =>
        refine ⟨[], c :: last, ?_, ?_, Or.inl ⟨rfl, ?_⟩⟩
        · simp [splitDotChars, hc, he]
        · intro x hx
          rcases List.mem_cons.mp hx with rfl | hx
          · exact hc
          · exact hdot x hx
        · rcases hshape with ⟨_, h2⟩ | ⟨h1, _⟩
          · rw [h2]
          · exact absurd rfl h1
      | cons q rest =>
        refine ⟨(c :: q) :: rest, last, ?_, hdot, Or.inr ⟨by simp, ?_⟩⟩
        · simp [splitDotChars, hc, he]
        · rcases hshape with ⟨h1, _⟩ | ⟨_, front, h2⟩
          · exact absurd h1 (by simp)
          · exact ⟨c :: front, by simp [h2]⟩

theorem last_label (domain : String) :
    ∃ suffix : String,
      idx (splitDot domain) ((splitDot domain).length - 1) = suffix ∧
      (∀ c ∈ suffix.data, c ≠ '.') ∧
      (domain = suffix ∨ ∃ front : String, domain = front ++ "." ++ suffix) := by
  obtain ⟨pre, last, he, hdot, hshape⟩ := splitDotChars_last domain.data
  refine ⟨String.mk last, ?_, hdot, ?_⟩
  · have h : splitDot domain = pre.map String.mk ++ [String.mk last] := by
      simp [splitDot, he]
    rw [h, idx_last]
  · rcases hshape with ⟨_, h2⟩ | ⟨_, front, h2⟩
    · exact Or.inl (String.ext h2)
    · refine Or.inr ⟨String.mk front, String.ext ?_⟩
      simp [String.data_append, h2]

/-! ## The paths of `CheckDomain` -/

theorem idnLoop_patterns (U : Unicode) (cfg : Config) (pats : List (String × List String))
    (parts : List String) :
    idnLoop U { WhoisServers := cfg.WhoisServers, NotFoundPattern := pats } parts =
      idnLoop U cfg parts := by
  induction parts with
  | nil => rfl
  | cons p rest ih => simp only [idnLoop, ih]

theorem getTLD_patterns (U : Unicode) (cfg : Config) (pats : List (String × List String))
    (domain : String) :
    getTLD U { WhoisServers := cfg.WhoisServers, NotFoundPattern := pats } domain =
      getTLD U cfg domain := by
  simp only [getTLD, idnLoop_patterns]

theorem queryWhois_patterns {σ : Type} (U : Unicode) (cfg : Config)
    (pats : List (String × List String)) (net : Net σ) (domain : String) (s : Sys σ) :
    queryWhois U { WhoisServers := cfg.WhoisServers, NotFoundPattern := pats } net domain s =
      queryWhois U cfg net domain s := by
  simp only [queryWhois, whoisServer, getTLD_patterns]

theorem queryWhois_log {σ : Type} (U : Unicode) (cfg : Config) (net : Net σ)
    (domain : String) (s : Sys σ) :
    (queryWhois U cfg net domain s).2.log =
      s.log ++ [NetCall.whois (whoisServer U cfg domain ++ ":43") (domain ++ "\r\n")] := by
  unfold queryWhois
  simp only []
  split <;> rfl

theorem checkDNSRecord_log {σ : Type} (net : Net σ) (domain : String) (s : Sys σ) :
    (checkDNSRecord net domain s).2.log = s.log ++ [NetCall.dns domain] := by
  unfold checkDNSRecord
  simp only []
  split
  · rfl
  · split <;> rfl
  · rfl

theorem CheckDomain_unsupported {σ : Type} (U : Unicode) (cfg : Config) (net : Net σ)
    (domain : String) (s : Sys σ) (h : getTLD U cfg domain = "") :
    CheckDomain U cfg net domain s =
      ({ Status := "failed",
         Reason := "Unsupported TLD",
         Details := "Unsupported top-level domain: " ++
           idx (splitDot domain) ((splitDot domain).length - 1),
         TimingInfo := [] }, s) := by
  unfold CheckDomain
  simp only [h, if_true]

theorem CheckDomain_whois_ok {σ : Type} (U : Unicode) (cfg : Config) (net : Net σ)
    (domain : String) (s : Sys σ) (whoisResponse : String)
    (hT : getTLD U cfg domain ≠ "")
    (hW : (queryWhois U cfg net domain s).1 = Except.ok whoisResponse) :
    CheckDomain U cfg net domain s =
      if (notFoundPatterns cfg (getTLD U cfg domain)).any
          (fun pattern => strContains whoisResponse pattern) = true then
        ({ Status := "unregistered",
           Reason := "Domain available according to WHOIS",
           Details := "Domain is not registered (confirmed by WHOIS)",
           TimingInfo := [("whois_query",
             net.elapsed s.world (queryWhois U cfg net domain s).2.world)] },
          (queryWhois U cfg net domain s).2)
      else
        ({ Status := "registered",
           Reason := "Domain registered according to WHOIS",
           Details := "Domain is registered (confirmed by WHOIS)",
           TimingInfo := [("whois_query",
             net.elapsed s.world (queryWhois U cfg net domain s).2.world)] },
          (queryWhois U cfg net domain s).2) := by
  unfold CheckDomain
  simp only [if_neg hT, hW, mapSet]

theorem CheckDomain_whois_error {σ : Type} (U : Unicode) (cfg : Config) (net : Net σ)
    (domain : String) (s : Sys σ) (err : String)
    (hT : getTLD U cfg domain ≠ "")
    (hW : (queryWhois U cfg net domain s).1 = Except.error err) :
    CheckDomain U cfg net domain s =
      match (checkDNSRecord net domain (queryWhois U cfg net domain s).2).1.2 with
      | none =>
        if (checkDNSRecord net domain (queryWhois U cfg net domain s).2).1.1 = true then
          ({ Status := "registered",
             Reason := "DNS resolution successful",
             Details := "Domain is registered (confirmed by DNS lookup)",
             TimingInfo := [("whois_query",
                 net.elapsed s.world (queryWhois U cfg net domain s).2.world),
               ("dns_query", net.elapsed (queryWhois U cfg net domain s).2.world
                 (checkDNSRecord net domain (queryWhois U cfg net domain s).2).2.world)] },
            (checkDNSRecord net domain (queryWhois U cfg net domain s).2).2)
        else
          ({ Status := "unregistered",
             Reason := "No DNS records found",
             Details := "Domain is not registered (confirmed by DNS lookup)",
             TimingInfo := [("whois_query",
                 net.elapsed s.world (queryWhois U cfg net domain s).2.world),
               ("dns_query", net.elapsed (queryWhois U cfg net domain s).2.world
                 (checkDNSRecord net domain (queryWhois U cfg net domain s).2).2.world)] },
            (checkDNSRecord net domain (queryWhois U cfg net domain s).2).2)
      | some dnsErr =>
        ({ Status := "failed",
           Reason := "Both WHOIS and DNS queries failed",
           Details := "WHOIS error: " ++ err ++ ", DNS error: " ++ dnsErr,
           TimingInfo := [("whois_query",
               net.elapsed s.world (queryWhois U cfg net domain s).2.world),
             ("dns_query", net.elapsed (queryWhois U cfg net domain s).2.world
               (checkDNSRecord net domain (queryWhois U cfg net domain s).2).2.world)] },
          (checkDNSRecord net domain (queryWhois U cfg net domain s).2).2) := by
  unfold CheckDomain
  simp only [if_neg hT, hW, mapSet]
  split <;> simp_all

/-! ## C4: pattern classification -/

/-- C4. After a WHOIS query that returned the text `whoisResponse` for a
domain with non-empty TLD `t`: the selected patterns are `NotFoundPattern[t]`
when that list has a pattern, and `NotFoundPattern["default"]` when `t` has
none (no entry, or an empty list); `CheckDomain` has status "unregistered"
with reason "Domain available according to WHOIS" exactly when some selected
pattern occurs in the response as a substring (compared character by
character, so case-sensitively), and otherwise status "registered" with reason
"Domain registered according to WHOIS". -/
theorem CheckDomain_pattern_classification {σ : Type} (U : Unicode) (cfg : Config)
    (net : Net σ) (domain : String) (s : Sys σ) (whoisResponse : String)
    (hT : getTLD U cfg domain ≠ "")
    (hW : (queryWhois U cfg net domain s).1 = Except.ok whoisResponse) :
    (∀ ps, mapGet cfg.NotFoundPattern (getTLD U cfg domain) = some ps → ps ≠ [] →
        notFoundPatterns cfg (getTLD U cfg domain) = ps) ∧
    (mapGet cfg.NotFoundPattern (getTLD U cfg domain) = none ∨
      mapGet cfg.NotFoundPattern (getTLD U cfg domain) = some [] →
        notFoundPatterns cfg (getTLD U cfg domain) =
          (mapGet cfg.NotFoundPattern "default").getD []) ∧
    (((CheckDomain U cfg net domain s).1.Status = "unregistered" ∧
        (CheckDomain U cfg net domain s).1.Reason = "Domain available according to WHOIS") ↔
      ∃ pattern ∈ notFoundPatterns cfg (getTLD U cfg domain),
        ∃ a b : String, whoisResponse = a ++ pattern ++ b) ∧
    ((¬ ∃ pattern ∈ notFoundPatterns cfg (getTLD U cfg domain),
        ∃ a b : String, whoisResponse = a ++ pattern ++ b) →
      (CheckDomain U cfg net domain s).1.Status = "registered" ∧
        (CheckDomain U cfg net domain s).1.Reason = "Domain registered according to WHOIS") := by
  have hany : (notFoundPatterns cfg (getTLD U cfg domain)).any
        (fun pattern => strContains whoisResponse pattern) = true ↔
      ∃ pattern ∈ notFoundPatterns cfg (getTLD U cfg domain),
        ∃ a b : String, whoisResponse = a ++ pattern ++ b := by
    rw [List.any_eq_true]
    constructor
    · rintro ⟨p, hp, hc⟩
      exact ⟨p, hp, (strContains_iff _ _).mp hc⟩
    · rintro ⟨p, hp, hc⟩
      exact ⟨p, hp, (strContains_iff _ _).mpr hc⟩
  have hsel1 : ∀ ps, mapGet cfg.NotFoundPattern (getTLD U cfg domain) = some ps → ps ≠ [] →
      notFoundPatterns cfg (getTLD U cfg domain) = ps := by
    intro ps hps hne
    unfold notFoundPatterns
    simp only [hps, Option.getD_some]
    rw [if_neg]
    intro hl
    exact hne (List.length_eq_zero.mp hl)
  have hsel2 : mapGet cfg.NotFoundPattern (getTLD U cfg domain) = none ∨
      mapGet cfg.NotFoundPattern (getTLD U cfg domain) = some [] →
        notFoundPatterns cfg (getTLD U cfg domain) =
          (mapGet cfg.NotFoundPattern "default").getD [] := by
    intro h
    unfold notFoundPatterns
    rcases h with h | h <;> simp [h]
  have hstr : ("registered" : String) ≠ "unregistered" := by decide
  rw [CheckDomain_whois_ok U cfg net domain s whoisResponse hT hW]
  by_cases hm : (notFoundPatterns cfg (getTLD U cfg domain)).any
      (fun pattern => strContains whoisResponse pattern) = true
  · rw [if_pos hm]
    exact ⟨hsel1, hsel2, ⟨fun _ => hany.mp hm, fun _ => ⟨rfl, rfl⟩⟩,
      fun hno => absurd (hany.mp hm) hno⟩
  · rw [if_neg hm]
    exact ⟨hsel1, hsel2, ⟨fun h => absurd h.1 hstr, fun h => absurd (hany.mpr h) hm⟩,
      fun _ => ⟨rfl, rfl⟩⟩

/-- C4, witnesses under the default configuration for "example-test.com": a
response containing "No match for" gives "unregistered", a response
containing no pattern gives "registered". -/
theorem CheckDomain_pattern_classification_witness :
    ((CheckDomain goUnicode NewConfig
        (tableNet (fun _ _ => Except.ok "No match for \"EXAMPLE-TEST.COM\".")
          (fun _ => LookupHostResult.addrs []))
        "example-test.com" sys0).1.Status = "unregistered" ∧
      (CheckDomain goUnicode NewConfig
        (tableNet (fun _ _ => Except.ok "No match for \"EXAMPLE-TEST.COM\".")
          (fun _ => LookupHostResult.addrs []))
        "example-test.com" sys0).1.Reason = "Domain available according to WHOIS") ∧
    ((CheckDomain goUnicode NewConfig
        (tableNet (fun _ _ => Except.ok "Domain Name: EXAMPLE-TEST.COM")
          (fun _ => LookupHostResult.addrs []))
        "example-test.com" sys0).1.Status = "registered" ∧
      (CheckDomain goUnicode NewConfig
        (tableNet (fun _ _ => Except.ok "Domain Name: EXAMPLE-TEST.COM")
          (fun _ => LookupHostResult.addrs []))
        "example-test.com" sys0).1.Reason = "Domain registered according to WHOIS") :=
  ⟨(CheckDomain_pattern_classification goUnicode NewConfig
        (tableNet (fun _ _ => Except.ok "No match for \"EXAMPLE-TEST.COM\".")
          (fun _ => LookupHostResult.addrs []))
        "example-test.com" sys0 "No match for \"EXAMPLE-TEST.COM\"."
        (by decide) rfl).2.2.1.mpr
      ⟨"No match for", by decide, "", " \"EXAMPLE-TEST.COM\".", by decide⟩,
    (CheckDomain_pattern_classification goUnicode NewConfig
        (tableNet (fun _ _ => Except.ok "Domain Name: EXAMPLE-TEST.COM")
          (fun _ => LookupHostResult.addrs []))
        "example-test.com" sys0 "Domain Name: EXAMPLE-TEST.COM"
        (by decide) rfl).2.2.2
      (by
        rintro ⟨p, hp, hc⟩
        have hno : (notFoundPatterns NewConfig (getTLD goUnicode NewConfig "example-test.com")).any
            (fun pattern => strContains "Domain Name: EXAMPLE-TEST.COM" pattern) = false := by
          decide
        have hyes := List.any_eq_true.mpr ⟨p, hp, (strContains_iff _ _).mpr hc⟩
        rw [hno] at hyes
        exact Bool.noConfusion hyes)⟩

/-! ## C5: DNS fallback -/

/-- C5. For a domain with a supported TLD whose WHOIS query returns the error
`e`, the result is decided by the one DNS probe `d` made after it: `(true,
nil)` gives "registered" / "DNS resolution successful"; `(false, nil)` gives
"unregistered" / "No DNS records found"; an error `e'` gives "failed" /
"Both WHOIS and DNS queries failed" with details that contain `e` and `e'`;
the operations performed are the WHOIS exchange and then one DNS lookup; and
the result is the same whatever `NotFoundPattern` holds. When the WHOIS query
succeeds, or the TLD is unsupported, no DNS lookup is performed. -/
theorem CheckDomain_dns_fallback {σ : Type} (U : Unicode) (cfg : Config)
    (net : Net σ) (domain : String) (s : Sys σ) :
    (∀ e, getTLD U cfg domain ≠ "" →
      (queryWhois U cfg net domain s).1 = Except.error e →
      ((checkDNSRecord net domain (queryWhois U cfg net domain s).2).1 = (true, none) →
        (CheckDomain U cfg net domain s).1.Status = "registered" ∧
        (CheckDomain U cfg net domain s).1.Reason = "DNS resolution successful") ∧
      ((checkDNSRecord net domain (queryWhois U cfg net domain s).2).1 = (false, none) →
        (CheckDomain U cfg net domain s).1.Status = "unregistered" ∧
        (CheckDomain U cfg net domain s).1.Reason = "No DNS records found") ∧
      (∀ e', (checkDNSRecord net domain (queryWhois U cfg net domain s).2).1.2 = some e' →
        (CheckDomain U cfg net domain s).1.Status = "failed" ∧
        (CheckDomain U cfg net domain s).1.Reason = "Both WHOIS and DNS queries failed" ∧
        (CheckDomain U cfg net domain s).1.Details =
          "WHOIS error: " ++ e ++ ", DNS error: " ++ e' ∧
        (∃ a b : String, (CheckDomain U cfg net domain s).1.Details = a ++ e ++ b) ∧
        (∃ a b : String, (CheckDomain U cfg net domain s).1.Details = a ++ e' ++ b)) ∧
      (CheckDomain U cfg net domain s).2.log =
        s.log ++ [NetCall.whois (whoisServer U cfg domain ++ ":43") (domain ++ "\r\n"),
          NetCall.dns domain] ∧
      (∀ pats, CheckDomain U
          { WhoisServers := cfg.WhoisServers, NotFoundPattern := pats } net domain s =
        CheckDomain U cfg net domain s)) ∧
    (∀ whoisResponse, getTLD U cfg domain ≠ "" →
      (queryWhois U cfg net domain s).1 = Except.ok whoisResponse →
      (CheckDomain U cfg net domain s).2.log =
        s.log ++ [NetCall.whois (whoisServer U cfg domain ++ ":43") (domain ++ "\r\n")]) ∧
    (getTLD U cfg domain = "" → (CheckDomain U cfg net domain s).2.log = s.log) := by
  refine ⟨?_, ?_, ?_⟩
  · intro e hT hW
    have hlog : (checkDNSRecord net domain (queryWhois U cfg net domain s).2).2.log =
        s.log ++ [NetCall.whois (whoisServer U cfg domain ++ ":43") (domain ++ "\r\n"),
          NetCall.dns domain] := by
      rw [checkDNSRecord_log, queryWhois_log]
      simp
    have hpat : ∀ pats, CheckDomain U
          { WhoisServers := cfg.WhoisServers, NotFoundPattern := pats } net domain s =
        CheckDomain U cfg net domain s := by
      intro pats
      have hT2 : getTLD U { WhoisServers := cfg.WhoisServers, NotFoundPattern := pats }
          domain ≠ "" := by
        rw [getTLD_patterns]
        exact hT
      have hW2 : (queryWhois U { WhoisServers := cfg.WhoisServers, NotFoundPattern := pats }
          net domain s).1 = Except.error e := by
        rw [queryWhois_patterns]
        exact hW
      rw [CheckDomain_whois_error U _ net domain s e hT2 hW2,
        CheckDomain_whois_error U cfg net domain s e hT hW]
      simp only [queryWhois_patterns]
    rw [CheckDomain_whois_error U cfg net domain s e hT hW] at hpat ⊢
    refine ⟨?_, ?_, ?_, ?_, hpat⟩
    · intro hd
      simp [hd]
    · intro hd
      simp [hd]
    · intro e' hd
      simp only [hd, true_and]
      exact ⟨⟨"WHOIS error: ", ", DNS error: " ++ e', by simp [String.append_assoc]⟩,
        ⟨"WHOIS error: " ++ e ++ ", DNS error: ", "", by simp⟩⟩
    · split
      · split <;> exact hlog
      · exact hlog
  · intro whoisResponse hT hW
    rw [CheckDomain_whois_ok U cfg net domain s whoisResponse hT hW]
    split <;> exact queryWhois_log U cfg net domain s
  · intro hT
    rw [CheckDomain_unsupported U cfg net domain s hT]

/-- C5, witness under the default configuration for "example.com" with a
WHOIS dial error: a "name not found" lookup gives "unregistered", and a lookup
failing with another error gives "failed" with both messages in the details. -/
theorem CheckDomain_dns_fallback_witness :
    ((CheckDomain goUnicode NewConfig
        (tableNet (fun _ _ => Except.error "dial tcp: i/o timeout")
          (fun _ => LookupHostResult.dnsError "no such host" true))
        "example.com" sys0).1.Status = "unregistered" ∧
      (CheckDomain goUnicode NewConfig
        (tableNet (fun _ _ => Except.error "dial tcp: i/o timeout")
          (fun _ => LookupHostResult.dnsError "no such host" true))
        "example.com" sys0).1.Reason = "No DNS records found") ∧
    (CheckDomain goUnicode NewConfig
        (tableNet (fun _ _ => Except.error "dial tcp: i/o timeout")
          (fun _ => LookupHostResult.dnsError "server misbehaving" false))
        "example.com" sys0).1.Details =
      "WHOIS error: " ++ "failed to connect to WHOIS server: dial tcp: i/o timeout" ++
        ", DNS error: " ++ "server misbehaving" :=
  ⟨((CheckDomain_dns_fallback goUnicode NewConfig
        (tableNet (fun _ _ => Except.error "dial tcp: i/o timeout")
          (fun _ => LookupHostResult.dnsError "no such host" true))
        "example.com" sys0).1
        "failed to connect to WHOIS server: dial tcp: i/o timeout"
        (by decide) rfl).2.1 rfl,
    (((CheckDomain_dns_fallback goUnicode NewConfig
        (tableNet (fun _ _ => Except.error "dial tcp: i/o timeout")
          (fun _ => LookupHostResult.dnsError "server misbehaving" false))
        "example.com" sys0).1
        "failed to connect to WHOIS server: dial tcp: i/o timeout"
        (by decide) rfl).2.2.1 "server misbehaving" rfl).2.2.1⟩

/-! ## C6: unsupported TLD -/

/-- C6. When `getTLD` is empty, `CheckDomain` returns status "failed", reason
"Unsupported TLD", details "Unsupported top-level domain: " followed by the
suffix of the domain as given (the text after its last ".", the whole domain
when it has none), an empty timing map, and leaves the system as it was: no
WHOIS exchange and no DNS lookup is logged. -/
theorem CheckDomain_unsupported_tld {σ : Type} (U : Unicode) (cfg : Config)
    (net : Net σ) (domain : String) (s : Sys σ) (h : getTLD U cfg domain = "") :
    (CheckDomain U cfg net domain s).1.Status = "failed" ∧
    (CheckDomain U cfg net domain s).1.Reason = "Unsupported TLD" ∧
    (∃ suffix : String,
      (CheckDomain U cfg net domain s).1.Details =
        "Unsupported top-level domain: " ++ suffix ∧
      (∀ c ∈ suffix.data, c ≠ '.') ∧
      (domain = suffix ∨ ∃ front : String, domain = front ++ "." ++ suffix)) ∧
    (CheckDomain U cfg net domain s).1.TimingInfo = [] ∧
    (CheckDomain U cfg net domain s).2 = s := by
  rw [CheckDomain_unsupported U cfg net domain s h]
  obtain ⟨suffix, hs, hdot, hshape⟩ := last_label domain
  exact ⟨rfl, rfl, ⟨suffix, by rw [← hs], hdot, hshape⟩, rfl, rfl⟩

/-- C6, witness under the default configuration: "example.nonexistenttld",
against a network that would answer every exchange and lookup. -/
theorem CheckDomain_unsupported_tld_witness :
    getTLD goUnicode NewConfig "example.nonexistenttld" = "" ∧
    (CheckDomain goUnicode NewConfig
        (tableNet (fun _ _ => Except.ok "") (fun _ => LookupHostResult.addrs ["192.0.2.1"]))
        "example.nonexistenttld" sys0).1.Status = "failed" ∧
    (CheckDomain goUnicode NewConfig
        (tableNet (fun _ _ => Except.ok "") (fun _ => LookupHostResult.addrs ["192.0.2.1"]))
        "example.nonexistenttld" sys0).2 = sys0 :=
  ⟨by decide,
    (CheckDomain_unsupported_tld goUnicode NewConfig
      (tableNet (fun _ _ => Except.ok "") (fun _ => LookupHostResult.addrs ["192.0.2.1"]))
      "example.nonexistenttld" sys0 (by decide)).1,
    (CheckDomain_unsupported_tld goUnicode NewConfig
      (tableNet (fun _ _ => Except.ok "") (fun _ => LookupHostResult.addrs ["192.0.2.1"]))
      "example.nonexistenttld" sys0 (by decide)).2.2.2.2⟩

theorem CheckDomain_unsupported_details_example :
    (CheckDomain goUnicode NewConfig
        (tableNet (fun _ _ => Except.ok "") (fun _ => LookupHostResult.addrs ["192.0.2.1"]))
        "example.nonexistenttld" sys0).1 =
      { Status := "failed",
        Reason := "Unsupported TLD",
        Details := "Unsupported top-level domain: nonexistenttld",
        TimingInfo := [] } := by
  decide

/-! ## C7: the batch -/

theorem CheckDomains_length {σ : Type} (U : Unicode) (cfg : Config) (net : Net σ)
    (domains : List String) (s : Sys σ) :
    (CheckDomains U cfg net domains s).1.length = domains.length := by
  induction domains generalizing s with
  | nil => rfl
  | cons d rest ih => simp [CheckDomains, ih]

theorem CheckDomains_get? {σ : Type} (U : Unicode) (cfg : Config) (net : Net σ)
    (domains : List String) (s : Sys σ) (i : Nat) :
    (CheckDomains U cfg net domains s).1.get? i =
      (domains.get? i).map (fun d =>
        (CheckDomain U cfg net d (CheckDomains U cfg net (domains.take i) s).2).1) := by
  induction domains generalizing s i with
  | nil => simp [CheckDomains]
  | cons d rest ih =>
    cases i with
    | zero => simp [CheckDomains]
    | succ j =>
      simp only [CheckDomains, List.get?_cons_succ, List.take_succ_cons]
      exact ih _ j

/-- C7. `CheckDomains` returns exactly one result per domain, and for every
index `i` the result at `i` is the result of `CheckDomain` on the domain at `i`,
run in the system left by the checks of the domains before it; beyond the
length of the input there is no result. No outcome of an earlier check stops
the loop. -/
theorem CheckDomains_order_and_independence {σ : Type} (U : Unicode) (cfg : Config)
    (net : Net σ) (domains : List String) (s : Sys σ) :
    (CheckDomains U cfg net domains s).1.length = domains.length ∧
    ∀ i : Nat, (CheckDomains U cfg net domains s).1.get? i =
      (domains.get? i).map (fun d =>
        (CheckDomain U cfg net d (CheckDomains U cfg net (domains.take i) s).2).1) :=
  ⟨CheckDomains_length U cfg net domains s, CheckDomains_get? U cfg net domains s⟩

theorem CheckDomains_example :
    (CheckDomains goUnicode NewConfig
        (tableNet (fun address _ =>
            if address = "whois.nic.io:43" then Except.ok "NOT FOUND"
            else Except.ok "Domain Name: A.COM")
          (fun _ => LookupHostResult.addrs []))
        ["a.com", "b.io", "c.nonexistenttld"] sys0).1.map (fun r => r.Status) =
      ["registered", "unregistered", "failed"] ∧
    (CheckDomains goUnicode NewConfig
        (tableNet (fun address _ =>
            if address = "whois.nic.io:43" then Except.ok "NOT FOUND"
            else Except.ok "Domain Name: A.COM")
          (fun _ => LookupHostResult.addrs []))
        ["c.nonexistenttld", "a.com", "b.io"] sys0).1.map (fun r => r.Status) =
      ["failed", "registered", "unregistered"] ∧
    (CheckDomains goUnicode NewConfig
        (tableNet (fun _ _ => Except.ok "") (fun _ => LookupHostResult.addrs []))
        [] sys0).1 = [] := by
  decide

/-! ## C8: validation in the handler -/

theorem utf8_sum_ge_length (l : List Char) : l.length ≤ (l.map Char.utf8Size).sum := by
  induction l with
  | nil => simp
  | cons c cs ih =>
    have hc : 1 ≤ c.utf8Size := Char.utf8Size_pos c
    simp only [List.length_cons, List.map_cons, List.sum_cons]
    omega

theorem goLen_ge_length (s : String) : s.length ≤ goLen s :=
  utf8_sum_ge_length s.data

theorem checkFormat_none_iff (domains : List String) :
    checkFormat domains = none ↔ ∀ d ∈ domains, 1 ≤ goLen d ∧ goLen d ≤ 255 := by
  induction domains with
  | nil => simp [checkFormat]
  | cons d rest ih =>
    unfold checkFormat
    by_cases h0 : goLen d = 0
    · simp [h0]
    · by_cases h1 : goLen d > 255
      · simp only [if_neg h0, if_pos h1, List.mem_cons, forall_eq_or_imp]
        constructor
        · intro h
          exact Option.noConfusion h
        · intro h
          omega
      · simp only [if_neg h0, if_neg h1, ih, List.mem_cons, forall_eq_or_imp]
        constructor
        · intro h
          exact ⟨⟨by omega, by omega⟩, h⟩
        · intro h
          exact h.2

theorem checkDomainsHandler_accepts_iff {σ : Type} (U : Unicode) (cfg : Config)
    (net : Net σ) (domains : List String) (s : Sys σ) :
    ((∃ response, (checkDomainsHandler U cfg net { Domains := domains } s).1 =
        Except.ok response) ↔
      1 ≤ domains.length ∧ domains.length ≤ 50 ∧
        ∀ d ∈ domains, 1 ≤ goLen d ∧ goLen d ≤ 255) ∧
    ((∃ err, (checkDomainsHandler U cfg net { Domains := domains } s).1 =
        Except.error err) →
      (checkDomainsHandler U cfg net { Domains := domains } s).2 = s) := by
  unfold checkDomainsHandler
  by_cases h0 : domains.length = 0
  · rw [if_pos h0]
    exact ⟨⟨fun ⟨_, h⟩ => Except.noConfusion h, fun h => by omega⟩, fun _ => rfl⟩
  · by_cases h1 : domains.length > 50
    · rw [if_neg h0, if_pos h1]
      exact ⟨⟨fun ⟨_, h⟩ => Except.noConfusion h, fun h => by omega⟩, fun _ => rfl⟩
    · rw [if_neg h0, if_neg h1]
      cases hf : checkFormat domains with
      | some err =>
        refine ⟨⟨fun ⟨_, h⟩ => Except.noConfusion h, fun h => ?_⟩, fun _ => rfl⟩
        rw [(checkFormat_none_iff domains).mpr h.2.2] at hf
        exact Option.noConfusion hf
      | none =>
        exact ⟨⟨fun _ => ⟨by omega, by omega, (checkFormat_none_iff domains).mp hf⟩,
          fun _ => ⟨_, rfl⟩⟩, fun ⟨_, h⟩ => Except.noConfusion h⟩

/-- C8, the code at the failing input. The domain of 84 times "中" followed by
".中国" has 87 characters and 259 bytes; the handler rejects the request with
the error "domain name cannot exceed 255 characters: ..." and performs no
network operation. -/
theorem checkDomainsHandler_rejects_87_characters :
    (String.mk (List.replicate 84 '中') ++ ".中国").length = 87 ∧
    goLen (String.mk (List.replicate 84 '中') ++ ".中国") = 259 ∧
    checkDomainsHandler goUnicode NewConfig
        (tableNet (fun _ _ => Except.ok "") (fun _ => LookupHostResult.addrs []))
        { Domains := [String.mk (List.replicate 84 '中') ++ ".中国"] } sys0 =
      (Except.error ("domain name cannot exceed 255 characters: " ++
        (String.mk (List.replicate 84 '中') ++ ".中国")), sys0) := by
  refine ⟨by decide, by decide, ?_⟩
  rfl

/-! ## C9: the boolean of the response -/

/-- C9, the code at the failing input. Under the default configuration the
request ["example.nonexistenttld"] is accepted, `CheckDomain` has status
"failed" for the domain, and the response holds `registered = false` for it,
the value that the source documents as "available". -/
theorem checkDomainsHandler_failed_is_reported_false :
    (CheckDomain goUnicode NewConfig
        (tableNet (fun _ _ => Except.ok "") (fun _ => LookupHostResult.addrs []))
        "example.nonexistenttld" sys0).1.Status = "failed" ∧
    checkDomainsHandler goUnicode NewConfig
        (tableNet (fun _ _ => Except.ok "") (fun _ => LookupHostResult.addrs []))
        { Domains := ["example.nonexistenttld"] } sys0 =
      (Except.ok { Results := [("example.nonexistenttld", { Registered := false })] },
        sys0) := by
  refine ⟨by decide, ?_⟩
  rfl

/-! ## C10: servers and pattern sets of the default configuration -/

/-- C10, the code at the failing input. Under `NewConfig` the keys "cn" and
"com.cn" map to the same server "whois.cnnic.cn" and select different pattern
sets; for the same response "No matching record." of that server,
`CheckDomain` answers "unregistered" for "a.cn" and "registered" for
"a.com.cn". -/
theorem NewConfig_same_server_different_patterns :
    mapGet NewConfig.WhoisServers "cn" = some "whois.cnnic.cn" ∧
    mapGet NewConfig.WhoisServers "com.cn" = some "whois.cnnic.cn" ∧
    notFoundPatterns NewConfig "cn" = ["no matching record", "No matching record"] ∧
    notFoundPatterns NewConfig "com.cn" =
      ["Domain not found", "No match for", "NOT FOUND", "No Data Found",
        "No entries found"] ∧
    (CheckDomain goUnicode NewConfig
        (tableNet (fun _ _ => Except.ok "No matching record.")
          (fun _ => LookupHostResult.addrs []))
        "a.cn" sys0).1.Status = "unregistered" ∧
    (CheckDomain goUnicode NewConfig
        (tableNet (fun _ _ => Except.ok "No matching record.")
          (fun _ => LookupHostResult.addrs []))
        "a.com.cn" sys0).1.Status = "registered" ∧
    (CheckDomain goUnicode NewConfig
        (tableNet (fun _ _ => Except.ok "No matching record.")
          (fun _ => LookupHostResult.addrs []))
        "a.cn" sys0).2.log = [NetCall.whois "whois.cnnic.cn:43" "a.cn\r\n"] ∧
    (CheckDomain goUnicode NewConfig
        (tableNet (fun _ _ => Except.ok "No matching record.")
          (fun _ => LookupHostResult.addrs []))
        "a.com.cn" sys0).2.log = [NetCall.whois "whois.cnnic.cn:43" "a.com.cn\r\n"] := by
  decide

theorem NewConfig_pattern_sets_differ_only_at_cn :
    ∀ k1 ∈ NewConfig.WhoisServers.map Prod.fst,
    ∀ k2 ∈ NewConfig.WhoisServers.map Prod.fst,
      mapGet NewConfig.WhoisServers k1 = mapGet NewConfig.WhoisServers k2 →
      notFoundPatterns NewConfig k1 ≠ notFoundPatterns NewConfig k2 →
      k1 = "cn" ∨ k2 = "cn" := by
  decide

/-! ## The entries of the response -/

theorem mapGet_mapSet {β : Type} (m : List (String × β)) (k k' : String) (v : β) :
    mapGet (mapSet m k v) k' = if k = k' then some v else mapGet m k' := by
  induction m with
  | nil => simp [mapSet, mapGet]
  | cons e rest ih =>
    obtain ⟨k0, v0⟩ := e
    unfold mapSet
    by_cases h0 : k0 = k
    · subst h0
      by_cases h1 : k0 = k'
      · simp [mapGet, h1]
      · simp [mapGet, h1]
    · by_cases h1 : k = k'
      · subst h1
        simp [mapGet, h0, ih]
      · simp [mapGet, h0, h1, ih]

theorem convertResults_not_mem (results : List DomainStatus) (domains : List String)
    (i : Nat) (m : List (String × SimpleDomainStatus)) (d : String) (hd : d ∉ domains) :
    mapGet (convertResults results domains i m) d = mapGet m d := by
  induction domains generalizing i m with
  | nil => rfl
  | cons x rest ih =>
    have hx : x ≠ d := fun h => hd (by simp [h])
    have hrest : d ∉ rest := fun h => hd (by simp [h])
    simp only [convertResults]
    rw [ih _ _ hrest, mapGet_mapSet, if_neg hx]

theorem convertResults_mem (results : List DomainStatus) (domains : List String)
    (i : Nat) (m : List (String × SimpleDomainStatus)) (d : String) (hd : d ∈ domains) :
    ∃ j, domains.get? j = some d ∧ (∀ j', j < j' → domains.get? j' ≠ some d) ∧
      mapGet (convertResults results domains i m) d =
        some { Registered := statusAt results (i + j) == "registered" } := by
  induction domains generalizing i m with
  | nil => simp at hd
  | cons x rest ih =>
    by_cases hrest : d ∈ rest
    · obtain ⟨j, hj, hlast, hget⟩ := ih (i + 1)
        (mapSet m x { Registered := statusAt results i == "registered" }) hrest
      refine ⟨j + 1, by simpa using hj, ?_, ?_⟩
      · intro j' hj'
        cases j' with
        | zero => omega
        | succ n =>
          simp only [List.get?_cons_succ]
          exact hlast n (by omega)
      · simp only [convertResults]
        rw [hget]
        have : i + 1 + j = i + (j + 1) := by omega
        rw [this]
    · have hx : d = x := by
        rcases List.mem_cons.mp hd with h | h
        · exact h
        · exact absurd h hrest
      subst hx
      refine ⟨0, by simp, ?_, ?_⟩
      · intro j' hj'
        cases j' with
        | zero => omega
        | succ n =>
          simp only [List.get?_cons_succ]
          intro hn
          exact hrest (List.get?_mem hn)
      · simp only [convertResults]
        rw [convertResults_not_mem _ _ _ _ _ hrest, mapGet_mapSet, if_pos rfl]
        rfl

theorem statusAt_CheckDomains {σ : Type} (U : Unicode) (cfg : Config) (net : Net σ)
    (domains : List String) (s : Sys σ) (j : Nat) (d : String)
    (hj : domains.get? j = some d) :
    statusAt (CheckDomains U cfg net domains s).1 j =
      (CheckDomain U cfg net d (CheckDomains U cfg net (domains.take j) s).2).1.Status := by
  unfold statusAt
  rw [CheckDomains_get?, hj]
  rfl

theorem checkDomainsHandler_entries {σ : Type} (U : Unicode) (cfg : Config)
    (net : Net σ) (domains : List String) (s : Sys σ)
    (response : SimpleCheckDomainsResponse)
    (h : (checkDomainsHandler U cfg net { Domains := domains } s).1 = Except.ok response) :
    ∀ d ∈ domains, ∃ j, domains.get? j = some d ∧
      (∀ j', j < j' → domains.get? j' ≠ some d) ∧
      ∃ st, mapGet response.Results d = some st ∧
        (st.Registered = true ↔
          (CheckDomain U cfg net d
            (CheckDomains U cfg net (domains.take j) s).2).1.Status = "registered") := by
  intro d hd
  unfold checkDomainsHandler at h
  by_cases h0 : domains.length = 0
  · rw [if_pos h0] at h
    exact Except.noConfusion h
  · by_cases h1 : domains.length > 50
    · rw [if_neg h0, if_pos h1] at h
      exact Except.noConfusion h
    · rw [if_neg h0, if_neg h1] at h
      cases hf : checkFormat domains with
      | some err =>
        rw [hf] at h
        exact Except.noConfusion h
      | none =>
        rw [hf] at h
        have hr : response =
            { Results := convertResults (CheckDomains U cfg net domains s).1 domains 0 [] } := by
          injection h with h'
          exact h'.symm
        obtain ⟨j, hj, hlast, hget⟩ :=
          convertResults_mem (CheckDomains U cfg net domains s).1 domains 0 [] d hd
        refine ⟨j, hj, hlast, _, by rw [hr]; exact hget, ?_⟩
        simp only [Nat.zero_add, beq_iff_eq]
        rw [statusAt_CheckDomains U cfg net domains s j d hj]

/-! ## Lower-casing and labels -/

theorem splitDotChars_map (f : Char → Char) (hdot : ∀ c, f c = '.' ↔ c = '.')
    (l : List Char) :
    splitDotChars (l.map f) = (splitDotChars l).map (List.map f) := by
  induction l with
  | nil => rfl
  | cons c cs ih =>
    by_cases hc : c = '.'
    · subst hc
      have hf : f '.' = '.' := (hdot '.').mpr rfl
      simp [splitDotChars, hf, ih]
    · have hf : ¬ f c = '.' := fun h => hc ((hdot c).mp h)
      simp only [List.map_cons, splitDotChars, if_neg hc, if_neg hf, ih]
      cases splitDotChars cs <;> rfl

theorem splitDot_strToLower (U : Unicode) (hdot : ∀ c, U.toLower c = '.' ↔ c = '.')
    (s : String) :
    splitDot (strToLower U s) = (splitDot s).map (strToLower U) := by
  unfold splitDot strToLower
  simp only [splitDotChars_map U.toLower hdot, List.map_map]
  rfl

theorem goUnicode_toLower_dot (c : Char) : goUnicode.toLower c = '.' ↔ c = '.' := by
  unfold goUnicode
  simp only []
  by_cases h : 65 ≤ c.toNat ∧ c.toNat ≤ 90
  · rw [if_pos h]
    constructor
    · intro hc
      exfalso
      obtain ⟨h1, h2⟩ := h
      generalize c.toNat = n at h1 h2 hc
      interval_cases n <;> exact absurd hc (by decide)
    · intro hc
      rw [hc] at h
      exact absurd h (by decide)
  · rw [if_neg h]

end FastDomainCheck
